import Mathlib

/-!
Shallow embedding of the process subsystem of YasSenOS-V2 (an educational
x86_64 kernel): the syscall dispatcher and service layer
(src/pkg/kernel/src/interrupt/syscall/mod.rs, service.rs), the process-level
wrappers (src/pkg/kernel/src/proc/mod.rs), and the manager / semaphore / vm
operations they call.  The modules `proc/manager.rs`, `proc/sync.rs`,
`proc/vm.rs`, `proc/process.rs` and the `syscall_def` crate are not among the
repository's source files; the definitions standing in for them are modelled
from the specification and say so in their doc comments.
-/

namespace YasSenOS

/-- Machine word bound: `usize` on x86_64 is 64 bits wide. -/
def USIZE : Nat := 2 ^ 64

/-- Bound of `u16` (the width of `ProcessId`). -/
def U16 : Nat := 2 ^ 16

/-- Bound of `u32` (the width of semaphore keys). -/
def U32 : Nat := 2 ^ 32

/-- The Rust cast `v as usize` applied to an `isize` value: two's-complement
reinterpretation, i.e. the value modulo `2 ^ 64`. -/
def usizeOfInt (v : Int) : Nat := (v % (USIZE : Int)).toNat

/-- The Rust cast `n as isize` applied to a `usize` value: values at or above
`2 ^ 63` become negative. -/
def isizeOfUsize (n : Nat) : Int :=
  if n % USIZE < 2 ^ 63 then ((n % USIZE : Nat) : Int)
  else ((n % USIZE : Nat) : Int) - (USIZE : Int)

/-- `ProgramStatus` (src/pkg/kernel/src/proc/mod.rs lines 31-37). -/
inductive ProgramStatus where
  | Running
  | Ready
  | Blocked
  | Dead
deriving Repr, DecidableEq

/-- `SemaphoreResult` as consumed by the wrappers in
src/pkg/kernel/src/proc/mod.rs (its defining module `proc/sync.rs` is not in
the sources; the four variants are those the wrappers match on). -/
inductive SemaphoreResult where
  | Ok
  | NotExist
  | Block (pid : Nat)
  | WakeUp (pid : Nat)
deriving Repr, DecidableEq

/-- The saved user register file.  Only the registers the syscall path reads
or writes are modelled: `rax` (call number / return value) and the three
argument registers (src/pkg/kernel/src/interrupt/syscall/mod.rs lines 33-39).
Each field holds a machine word below `USIZE`. -/
structure RegFile where
  rax : Nat
  rdi : Nat
  rsi : Nat
  rdx : Nat
deriving Repr, DecidableEq

/-- `ProcessContext`: snapshot of the user register file saved at interrupt
entry and restored at interrupt exit. -/
structure ProcessContext where
  regs : RegFile
deriving Repr, DecidableEq

/-- `ProcessContext::set_rax`: write a return value into the saved rax slot;
the stored word is reduced modulo the `usize` width. -/
def ProcessContext.set_rax (c : ProcessContext) (v : Nat) : ProcessContext :=
  { c with regs := { c.regs with rax := v % USIZE } }

/-- `core::alloc::Layout`: a size and an alignment. -/
structure Layout where
  size : Nat
  align : Nat
deriving Repr, DecidableEq

/-- Modelled from the spec: `proc/sync.rs` is not in the sources.  §4.6: each
semaphore holds a counter and a FIFO queue of blocked pids (head = longest
waiting). -/
structure Semaphore where
  count : Nat
  waitQueue : List Nat
deriving Repr, DecidableEq

/-- Per-process semaphore table, keyed by the (u32) semaphore key. -/
abbrev SemTable := Nat → Option Semaphore

/-- Modelled from the spec (§4.6 `new(key, init)`): insert if absent, report
whether insertion happened. -/
def semNew (t : SemTable) (key init : Nat) : Bool × SemTable :=
  match t key with
  | some _ => (false, t)
  | none => (true, fun k => if k = key then some ⟨init, []⟩ else t k)

/-- Modelled from the spec (§4.6 `remove(key)`): remove the semaphore; any
waiters are not woken; report whether the key was present. -/
def semRemove (t : SemTable) (key : Nat) : Bool × SemTable :=
  match t key with
  | some _ => (true, fun k => if k = key then none else t k)
  | none => (false, t)

/-- Modelled from the spec (§4.6 `wait(key, pid)`): absent key is `NotExist`;
a positive counter is decremented (`Ok`); otherwise the pid is appended to
the FIFO queue (`Block pid`). -/
def semWait (t : SemTable) (key pid : Nat) : SemaphoreResult × SemTable :=
  match t key with
  | none => (.NotExist, t)
  | some s =>
    if 0 < s.count then
      (.Ok, fun k => if k = key then some { s with count := s.count - 1 } else t k)
    else
      (.Block pid, fun k =>
        if k = key then some { s with waitQueue := s.waitQueue ++ [pid] } else t k)

/-- Modelled from the spec (§4.6 `signal(key)`): absent key is `NotExist`;
with a waiter, the queue head is dequeued (`WakeUp head`, counter unchanged);
with no waiter the counter is incremented (`Ok`). -/
def semSignal (t : SemTable) (key : Nat) : SemaphoreResult × SemTable :=
  match t key with
  | none => (.NotExist, t)
  | some s =>
    match s.waitQueue with
    | [] => (.Ok, fun k => if k = key then some { s with count := s.count + 1 } else t k)
    | w :: rest =>
      (.WakeUp w, fun k => if k = key then some { s with waitQueue := rest } else t k)

/-- User memory of one process, one byte cell per address (per-process
address spaces, spec §4.3/§4.4; `proc/vm.rs` and `proc/paging.rs` are not in
the sources). -/
abbrev UserMem := Nat → Nat

/-- Store a list of bytes at consecutive addresses. -/
def memStoreBytes (mem : UserMem) (addr : Nat) (bytes : List Nat) : UserMem :=
  fun a => if addr ≤ a ∧ a - addr < bytes.length then bytes.getD (a - addr) 0 else mem a

/-- The little-endian bytes of a 64-bit value. -/
def u64Bytes (v : Nat) : List Nat := (List.range 8).map fun i => v / 256 ^ i % 256

/-- Store a 64-bit value little-endian. -/
def memStoreU64 (mem : UserMem) (addr v : Nat) : UserMem :=
  memStoreBytes mem addr (u64Bytes v)

/-- Load a 64-bit value little-endian. -/
def memLoadU64 (mem : UserMem) (addr : Nat) : Nat :=
  ((List.range 8).map fun i => mem (addr + i) % 256 * 256 ^ i).sum

/-- One process: status and saved context (src `proc/mod.rs`,
`ProgramStatus` / `ProcessContext` usage), plus exit code, the per-process
semaphore table, the heap end and the process's user memory image — fields of
`process.rs` / `data.rs` / `vm.rs`, which are not in the sources and follow
the spec's data model (§3). -/
structure Process where
  status : ProgramStatus
  context : ProcessContext
  exitCode : Int
  sems : SemTable
  heapEnd : Nat
  mem : UserMem

/-- pid 1 is the kernel process (src/pkg/kernel/src/proc/mod.rs line 29). -/
def KERNEL_PID : Nat := 1

/-- Modelled from the spec: `proc/manager.rs` is not in the sources.  §4.1:
the manager owns the process table (pid to process), the FIFO ready queue,
the current pid and the monotonic pid counter.  `waiters` records, per target
pid, the pid blocked in `wait_pid` on it (§4.5: exit wakes a parent blocked
in `wait_pid` on this pid). -/
structure ProcessManager where
  table : Nat → Option Process
  readyQueue : List Nat
  current : Nat
  nextPid : Nat
  waiters : Nat → Option Nat

/-- Point update of one table entry. -/
def pmUpdate (m : ProcessManager) (pid : Nat) (f : Process → Process) : ProcessManager :=
  { m with table := fun q => if q = pid then (m.table pid).map f else m.table q }

/-- Insert (or overwrite) one table entry. -/
def pmInsert (m : ProcessManager) (pid : Nat) (p : Process) : ProcessManager :=
  { m with table := fun q => if q = pid then some p else m.table q }

/-- Remove one table entry. -/
def pmRemove (m : ProcessManager) (pid : Nat) : ProcessManager :=
  { m with table := fun q => if q = pid then none else m.table q }

/-- Modelled from the spec (§4.1 `save_current(ctx)`): write the live context
into the current process's saved slot, transition Running to Ready unless the
caller already set a different status, return the current pid. -/
def save_current (m : ProcessManager) (ctx : ProcessContext) : Nat × ProcessManager :=
  (m.current, pmUpdate m m.current fun p =>
    { p with context := ctx
             status := if p.status = .Running then .Ready else p.status })

/-- Modelled from the spec (§4.1 `push_ready(pid)`): append to the FIFO ready
queue. -/
def push_ready (m : ProcessManager) (pid : Nat) : ProcessManager :=
  { m with readyQueue := m.readyQueue ++ [pid] }

/-- Modelled from the spec (§4.1 `switch_next(ctx)`): pop the front of the
ready queue (the kernel pid when the queue is empty), load the selected
process's saved context into the live slot, mark it Running and make it
current.  The fallback branch (selected pid not in the table) is unreachable
in well-formed states and leaves the live context alone. -/
def switch_next (m : ProcessManager) (ctx : ProcessContext) :
    ProcessContext × ProcessManager :=
  let next := m.readyQueue.headD KERNEL_PID
  let rest := m.readyQueue.tail
  match m.table next with
  | some p =>
    (p.context,
      { pmUpdate m next (fun q => { q with status := .Running }) with
          readyQueue := rest
          current := next })
  | none => (ctx, { m with readyQueue := rest })

/-- Modelled from the spec (§4.1 `block(pid)`): status transition to
Blocked. -/
def blockPid (m : ProcessManager) (pid : Nat) : ProcessManager :=
  pmUpdate m pid fun p => { p with status := .Blocked }

/-- Modelled from the spec (§4.1 `wake_up(pid, ret)`): write `ret` into the
waiter's saved return register, mark it Ready and re-enqueue it. -/
def wake_up (m : ProcessManager) (pid : Nat) (ret : Int) : ProcessManager :=
  push_ready
    (pmUpdate m pid fun p =>
      { p with status := .Ready
               context := p.context.set_rax (usizeOfInt ret) })
    pid

/-- Modelled from the spec (§4.1/§4.5 `wait_pid(pid)` manager half): a Dead
target yields its exit code and is removed from the table; otherwise `None`
is returned and the caller is registered as the waiter on the target. -/
def pmWaitPid (m : ProcessManager) (pid : Nat) : Option Int × ProcessManager :=
  match m.table pid with
  | some p =>
    if p.status = .Dead then (some p.exitCode, pmRemove m pid)
    else (none, { m with waiters := fun t => if t = pid then some m.current else m.waiters t })
  | none =>
    (none, { m with waiters := fun t => if t = pid then some m.current else m.waiters t })

/-- Modelled from the spec (§4.1/§4.5 `kill(pid, code)` / `kill_self`): mark
the target Dead recording the exit code, drop it from the ready queue, and if
some process is blocked in `wait_pid` on it, wake that waiter delivering the
code into its saved return register; a collected target is removed from the
table (frame/page teardown and orphan reparenting are outside this model). -/
def pmKill (m : ProcessManager) (pid : Nat) (code : Int) : ProcessManager :=
  let m1 := pmUpdate m pid fun p => { p with status := .Dead, exitCode := code }
  let m2 := { m1 with readyQueue := m1.readyQueue.filter (fun q => q != pid) }
  match m.waiters pid with
  | some w =>
    pmRemove
      { wake_up m2 w code with
          waiters := fun t => if t = pid then none else m.waiters t }
      pid
  | none => m2

/-- Modelled from the spec (§4.4 fork, steps 2-5; `manager.rs` and
`paging.rs` are not in the sources): draw a fresh pid from the monotonic
counter; the child is a deep copy of the parent (user memory copied byte for
byte, strict copy-on-fork) whose saved context equals the parent's with the
return register overridden to 0; the parent's saved return register is set to
the child pid; the child is enqueued Ready.  Semaphore sharing-by-reference
across fork is modelled as a table copy (no claim distinguishes the two). -/
def pmFork (m : ProcessManager) : ProcessManager :=
  match m.table m.current with
  | none => m
  | some parent =>
    let childPid := m.nextPid
    let child : Process := { parent with status := .Ready
                                         context := parent.context.set_rax 0 }
    let m1 := pmUpdate m m.current fun p =>
      { p with context := p.context.set_rax childPid }
    let m2 := pmInsert m1 childPid child
    { m2 with nextPid := m.nextPid + 1
              readyQueue := m2.readyQueue ++ [childPid] }

/-- src/pkg/kernel/src/proc/mod.rs `fork` (lines 64-77): save the parent,
fork, push the parent onto the ready queue, switch to the next process. -/
def fork (ctx : ProcessContext) (m : ProcessManager) : ProcessContext × ProcessManager :=
  let sc := save_current m ctx
  let m2 := pmFork sc.2
  let m3 := push_ready m2 sc.1
  switch_next m3 ctx

/-- src/pkg/kernel/src/proc/mod.rs `process_exit` (lines 91-97): kill the
current process with the given code, then switch to the next process. -/
def process_exit (ret : Int) (ctx : ProcessContext) (m : ProcessManager) :
    ProcessContext × ProcessManager :=
  switch_next (pmKill m m.current ret) ctx

/-- src/pkg/kernel/src/proc/mod.rs `wait_pid` (lines 99-110): a Dead target's
exit code goes into the caller's saved return register; otherwise the caller
is saved, blocked and switched out. -/
def wait_pid (pid : Nat) (ctx : ProcessContext) (m : ProcessManager) :
    ProcessContext × ProcessManager :=
  match pmWaitPid m pid with
  | (some ret, m1) => (ctx.set_rax (usizeOfInt ret), m1)
  | (none, m1) =>
    let sc := save_current m1 ctx
    switch_next (blockPid sc.2 sc.1) ctx

/-- src/pkg/kernel/src/proc/mod.rs `kill` (lines 128-138): killing the
current pid is `kill_self(0xdead)` plus a switch; killing another pid marks
it without a switch. -/
def kill (pid : Nat) (ctx : ProcessContext) (m : ProcessManager) :
    ProcessContext × ProcessManager :=
  if pid = m.current then
    switch_next (pmKill m m.current 0xdead) ctx
  else
    (ctx, pmKill m pid 0xdead)

/-- src/pkg/kernel/src/proc/mod.rs `sem_wait` (lines 199-217): `Ok` writes 0,
`NotExist` writes 1 into the caller's saved return register; `Block` saves
the caller, blocks it and switches out.  The `WakeUp` arm is `unreachable!()`
in the source (`semWait` never returns it) and is modelled as a no-op. -/
def sem_wait (key : Nat) (ctx : ProcessContext) (m : ProcessManager) :
    ProcessContext × ProcessManager :=
  match m.table m.current with
  | none => (ctx, m)
  | some p =>
    let r := semWait p.sems key m.current
    let m1 := pmUpdate m m.current fun q => { q with sems := r.2 }
    match r.1 with
    | .Ok => (ctx.set_rax 0, m1)
    | .NotExist => (ctx.set_rax 1, m1)
    | .Block _ =>
      let sc := save_current m1 ctx
      switch_next (blockPid sc.2 sc.1) ctx
    | .WakeUp _ => (ctx, m1)

/-- src/pkg/kernel/src/proc/mod.rs `sem_signal` (lines 219-231): `Ok` writes
0, `NotExist` writes 1 into the caller's saved return register; `WakeUp pid`
wakes the dequeued waiter with return value 0.  The `Block` arm is
`unreachable!()` in the source (`semSignal` never returns it) and is modelled
as a no-op. -/
def sem_signal (key : Nat) (ctx : ProcessContext) (m : ProcessManager) :
    ProcessContext × ProcessManager :=
  match m.table m.current with
  | none => (ctx, m)
  | some p =>
    let r := semSignal p.sems key
    let m1 := pmUpdate m m.current fun q => { q with sems := r.2 }
    match r.1 with
    | .Ok => (ctx.set_rax 0, m1)
    | .NotExist => (ctx.set_rax 1, m1)
    | .WakeUp w => (ctx, wake_up m1 w 0)
    | .Block _ => (ctx, m1)

/-- src/pkg/kernel/src/proc/mod.rs `new_sem` (lines 233-243): 0 on success,
1 when the key already exists. -/
def new_sem (key init : Nat) (m : ProcessManager) : Nat × ProcessManager :=
  match m.table m.current with
  | none => (1, m)
  | some p =>
    let r := semNew p.sems key init
    ((if r.1 then 0 else 1), pmUpdate m m.current fun q => { q with sems := r.2 })

/-- src/pkg/kernel/src/proc/mod.rs `remove_sem` (lines 245-255): 0 on
success, 1 when the key is absent. -/
def remove_sem (key : Nat) (m : ProcessManager) : Nat × ProcessManager :=
  match m.table m.current with
  | none => (1, m)
  | some p =>
    let r := semRemove p.sems key
    ((if r.1 then 0 else 1), pmUpdate m m.current fun q => { q with sems := r.2 })

/-- Modelled from the spec: the configured maximum heap end (§4.3 caps heap
growth); its concrete value is not in the sources. -/
def HEAP_MAX : Nat := 2 ^ 40

/-- Page size of the heap granularity. -/
def PAGE_SIZE : Nat := 4096

/-- Round an address up to a page boundary. -/
def pageAlignUp (n : Nat) : Nat := (n + PAGE_SIZE - 1) / PAGE_SIZE * PAGE_SIZE

/-- src/pkg/kernel/src/proc/mod.rs `brk` (lines 257-262) with
`ProcessVm::brk` modelled from the spec (§4.3, `vm.rs` is not in the
sources): no argument returns the current `heap_end` unchanged; a new end is
rounded up to a page boundary and adopted when within the configured cap,
otherwise the prior `heap_end` is returned unchanged. -/
def brk (addr : Option Nat) (m : ProcessManager) : Nat × ProcessManager :=
  match m.table m.current with
  | none => (0, m)
  | some p =>
    match addr with
    | none => (p.heapEnd, m)
    | some a =>
      let aligned := pageAlignUp a
      if aligned ≤ HEAP_MAX then
        (aligned, pmUpdate m m.current fun q => { q with heapEnd := aligned })
      else
        (p.heapEnd, m)

/-- Modelled from the spec (§4.3/§4.4): a user-mode store executed by process
`pid` updates only that process's own memory image. -/
def userStoreU64 (m : ProcessManager) (pid addr v : Nat) : ProcessManager :=
  pmUpdate m pid fun p => { p with mem := memStoreU64 p.mem addr v }

/-- Kernel state seen by the syscall service layer: the process manager, the
single global user-heap allocator (`crate::memory::user::USER_ALLOCATOR`,
whose internal state is the type parameter `A`), the clock, the console
output stream, the console input stream and the boot-supplied app list. -/
structure KernelState (A : Type) where
  pm : ProcessManager
  userAllocator : A
  clockNanos : Int
  serialOut : List Nat
  stdinBuf : List Nat
  appList : List String

/-- External collaborators of the service layer: the third-party
`linked_list_allocator` behind `USER_ALLOCATOR`, and the raw-pointer reads of
user memory the service functions perform (`Layout` and `&str` arguments are
fetched through unchecked pointers). -/
structure Externals (A : Type) where
  allocate_first_fit : A → Layout → Option Nat × A
  deallocate : A → Nat → Layout → A
  derefLayout : Nat → Layout
  derefStr : Nat → Nat → String

/-- The syscall enumeration as matched by the dispatcher
(src/pkg/kernel/src/interrupt/syscall/mod.rs lines 41-74; the defining
`syscall_def` crate is not in the sources). -/
inductive Syscall where
  | Brk
  | Sem
  | Fork
  | Read
  | Write
  | GetPid
  | Spawn
  | Exit
  | WaitPid
  | Kill
  | Time
  | Stat
  | ListApp
  | Allocate
  | Deallocate
  | None
deriving Repr, DecidableEq

/-- Modelled from the spec: `Syscall::from(usize)` lives in the `syscall_def`
crate, which is not in the sources.  §6 fixes a closed enumeration of call
numbers; the concrete assignment being unknown, a representative one is used
here, and every number outside it decodes to `Syscall.None` (the spec's
"unknown numbers are ignored"). -/
def syscallFromNat : Nat → Syscall
  | 1 => .Brk
  | 2 => .Sem
  | 3 => .Fork
  | 4 => .Read
  | 5 => .Write
  | 6 => .GetPid
  | 7 => .Spawn
  | 8 => .Exit
  | 9 => .WaitPid
  | 10 => .Kill
  | 11 => .Time
  | 12 => .Stat
  | 13 => .ListApp
  | 14 => .Allocate
  | 15 => .Deallocate
  | _ => .None

/-- `SyscallArgs` (src/pkg/kernel/src/interrupt/syscall/mod.rs lines 25-31). -/
structure SyscallArgs where
  syscall : Syscall
  arg0 : Nat
  arg1 : Nat
  arg2 : Nat
deriving Repr, DecidableEq

/-- src/pkg/kernel/src/interrupt/syscall/service.rs `sys_allocate` (lines
17-32): dereference the layout pointer; a zero-size layout returns 0;
otherwise ask the single global `USER_ALLOCATOR` for a first-fit block,
returning the pointer, or 0 on failure.  The current process plays no part. -/
def sys_allocate {A : Type} (ext : Externals A) (st : KernelState A)
    (args : SyscallArgs) : Nat × KernelState A :=
  let layout := ext.derefLayout args.arg0
  if layout.size = 0 then (0, st)
  else
    match ext.allocate_first_fit st.userAllocator layout with
    | (some ptr, a) => (ptr, { st with userAllocator := a })
    | (none, a) => (0, { st with userAllocator := a })

/-- src/pkg/kernel/src/interrupt/syscall/service.rs `sys_deallocate` (lines
34-48): a null pointer or zero-size layout is ignored; otherwise the block is
returned to the single global `USER_ALLOCATOR`. -/
def sys_deallocate {A : Type} (ext : Externals A) (st : KernelState A)
    (args : SyscallArgs) : KernelState A :=
  let layout := ext.derefLayout args.arg1
  if args.arg0 = 0 ∨ layout.size = 0 then st
  else { st with userAllocator := ext.deallocate st.userAllocator args.arg0 layout }

/-- Modelled from the spec (§4.1 `spawn`; `manager.rs` not in the sources):
allocate a fresh pid, create the process Ready (entry context, ELF mapping
and stack reservation abstracted to an initial process) and enqueue it. -/
def pmSpawn (m : ProcessManager) : Nat × ProcessManager :=
  let pid := m.nextPid
  let p : Process :=
    { status := .Ready
      context := ⟨⟨0, 0, 0, 0⟩⟩
      exitCode := 0
      sems := fun _ => none
      heapEnd := 0
      mem := fun _ => 0 }
  (pid,
    { pmInsert m pid p with nextPid := m.nextPid + 1
                            readyQueue := m.readyQueue ++ [pid] })

/-- src/pkg/kernel/src/interrupt/syscall/service.rs `spawn_process` (lines
50-66) with proc/mod.rs `spawn`/`elf_spawn`: read the app name, look it up in
the boot app list, spawn on a hit (returning the new pid as u16), return 0 on
a miss. -/
def spawn_process {A : Type} (ext : Externals A) (st : KernelState A)
    (args : SyscallArgs) : Nat × KernelState A :=
  let name := ext.derefStr args.arg0 args.arg1
  if st.appList.contains name then
    let r := pmSpawn st.pm
    (r.1 % U16, { st with pm := r.2 })
  else (0, st)

/-- Modelled from the spec (§6 file descriptors; `manager.rs` read/write are
not in the sources): fd 1 and fd 2 accept every byte and report the count
written; other fds return -1. -/
def pmWrite {A : Type} (fd : Nat) (buf : List Nat) (st : KernelState A) :
    Int × KernelState A :=
  if fd = 1 ∨ fd = 2 then ((buf.length : Int), { st with serialOut := st.serialOut ++ buf })
  else (-1, st)

/-- Modelled from the spec (§6 file descriptors): fd 0 yields up to `len`
bytes from the input stream; other fds return -1. -/
def pmRead {A : Type} (fd len : Nat) (st : KernelState A) :
    Int × List Nat × KernelState A :=
  if fd = 0 then
    let k := min len st.stdinBuf.length
    ((k : Int), st.stdinBuf.take k, { st with stdinBuf := st.stdinBuf.drop k })
  else (-1, [], st)

/-- src/pkg/kernel/src/interrupt/syscall/service.rs `sys_read` (lines 68-72):
read through fd `arg0 as u8` into the user buffer at `arg1` of length `arg2`;
the isize count is returned `as usize`. -/
def sys_read {A : Type} (st : KernelState A) (args : SyscallArgs) :
    Nat × KernelState A :=
  let r := pmRead (args.arg0 % 256) args.arg2 st
  let st1 := r.2.2
  (usizeOfInt r.1,
    { st1 with pm := pmUpdate st1.pm st1.pm.current fun p =>
        { p with mem := memStoreBytes p.mem args.arg1 r.2.1 } })

/-- src/pkg/kernel/src/interrupt/syscall/service.rs `sys_write` (lines
74-78): write the user buffer at `arg1` of length `arg2` through fd
`arg0 as u8`; the isize count is returned `as usize`. -/
def sys_write {A : Type} (st : KernelState A) (args : SyscallArgs) :
    Nat × KernelState A :=
  let buf :=
    match st.pm.table st.pm.current with
    | some p => (List.range args.arg2).map fun i => p.mem (args.arg1 + i) % 256
    | none => []
  let r := pmWrite (args.arg0 % 256) buf st
  (usizeOfInt r.1, r.2)

/-- src/pkg/kernel/src/interrupt/syscall/service.rs `sys_get_pid` (lines
80-82): the current pid as u16. -/
def sys_get_pid (m : ProcessManager) : Nat := m.current % U16

/-- src/pkg/kernel/src/interrupt/syscall/service.rs `exit_process` (lines
84-86): `process_exit(arg0 as isize)`. -/
def exit_process (args : SyscallArgs) (ctx : ProcessContext) (m : ProcessManager) :
    ProcessContext × ProcessManager :=
  process_exit (isizeOfUsize args.arg0) ctx m

/-- src/pkg/kernel/src/interrupt/syscall/service.rs `sys_wait_pid` (lines
92-95): wait on `ProcessId(arg0 as u16)`. -/
def sys_wait_pid (args : SyscallArgs) (ctx : ProcessContext) (m : ProcessManager) :
    ProcessContext × ProcessManager :=
  wait_pid (args.arg0 % U16) ctx m

/-- src/pkg/kernel/src/interrupt/syscall/service.rs `sys_kill` (lines
97-104): killing `ProcessId(1)` (the kernel) is rejected with a warning and
nothing else happens; any other pid goes to `kill`. -/
def sys_kill (args : SyscallArgs) (ctx : ProcessContext) (m : ProcessManager) :
    ProcessContext × ProcessManager :=
  let pid := args.arg0 % U16
  if pid = 1 then (ctx, m)
  else kill pid ctx m

/-- src/pkg/kernel/src/interrupt/syscall/service.rs `sys_fork` (lines
106-109). -/
def sys_fork (ctx : ProcessContext) (m : ProcessManager) :
    ProcessContext × ProcessManager :=
  fork ctx m

/-- src/pkg/kernel/src/interrupt/syscall/service.rs `sys_sem` (lines
111-119): `arg0` selects the operation (0 new, 1 remove, 2 signal, 3 wait,
key `arg1 as u32`, initial value `arg2`); any other selector writes
`usize::MAX` into the caller's saved return register and does nothing else. -/
def sys_sem (args : SyscallArgs) (ctx : ProcessContext) (m : ProcessManager) :
    ProcessContext × ProcessManager :=
  if args.arg0 = 0 then
    let r := new_sem (args.arg1 % U32) args.arg2 m
    (ctx.set_rax r.1, r.2)
  else if args.arg0 = 1 then
    let r := remove_sem (args.arg1 % U32) m
    (ctx.set_rax r.1, r.2)
  else if args.arg0 = 2 then sem_signal (args.arg1 % U32) ctx m
  else if args.arg0 = 3 then sem_wait (args.arg1 % U32) ctx m
  else (ctx.set_rax (USIZE - 1), m)

/-- src/pkg/kernel/src/interrupt/syscall/service.rs `sys_brk` (lines
121-129): argument 0 decodes to `None` (query), anything else to
`Some(arg0)`. -/
def sys_brk (args : SyscallArgs) (m : ProcessManager) : Nat × ProcessManager :=
  brk (if args.arg0 = 0 then none else some args.arg0) m

/-- src/pkg/kernel/src/interrupt/syscall/mod.rs `dispatcher` (lines 33-75):
decode `SyscallArgs` from the saved registers (call number in rax, arguments
in rdi/rsi/rdx) and dispatch; return values are written into the saved rax of
the caller's context.  `Stat` and `ListApp` only print and change nothing;
`Syscall.None` does nothing at all. -/
def dispatcher {A : Type} (ext : Externals A) (ctx : ProcessContext)
    (st : KernelState A) : ProcessContext × KernelState A :=
  let args : SyscallArgs :=
    ⟨syscallFromNat ctx.regs.rax, ctx.regs.rdi, ctx.regs.rsi, ctx.regs.rdx⟩
  match args.syscall with
  | .Brk =>
    let r := sys_brk args st.pm
    (ctx.set_rax r.1, { st with pm := r.2 })
  | .Sem =>
    let r := sys_sem args ctx st.pm
    (r.1, { st with pm := r.2 })
  | .Fork =>
    let r := sys_fork ctx st.pm
    (r.1, { st with pm := r.2 })
  | .Read =>
    let r := sys_read st args
    (ctx.set_rax r.1, r.2)
  | .Write =>
    let r := sys_write st args
    (ctx.set_rax r.1, r.2)
  | .GetPid => (ctx.set_rax (sys_get_pid st.pm), st)
  | .Spawn =>
    let r := spawn_process ext st args
    (ctx.set_rax r.1, r.2)
  | .Exit =>
    let r := exit_process args ctx st.pm
    (r.1, { st with pm := r.2 })
  | .WaitPid =>
    let r := sys_wait_pid args ctx st.pm
    (r.1, { st with pm := r.2 })
  | .Kill =>
    let r := sys_kill args ctx st.pm
    (r.1, { st with pm := r.2 })
  | .Time => (ctx.set_rax (usizeOfInt st.clockNanos), st)
  | .Stat => (ctx, st)
  | .ListApp => (ctx, st)
  | .Allocate =>
    let r := sys_allocate ext st args
    (ctx.set_rax r.1, r.2)
  | .Deallocate => (ctx, sys_deallocate ext st args)
  | .None => (ctx, st)

/-! ## Concrete sample states (used by witnesses and counterexamples) -/

/-- All-zero user memory. -/
def zeroMem : UserMem := fun _ => 0

/-- A zeroed register file / context. -/
def ctx0 : ProcessContext := ⟨⟨0, 0, 0, 0⟩⟩

/-- A minimal kernel process. -/
def kernelProc : Process :=
  { status := .Running, context := ctx0, exitCode := 0, sems := fun _ => none,
    heapEnd := 0, mem := zeroMem }

/-- A minimal user process with a 4096-byte heap. -/
def userProc : Process :=
  { status := .Running, context := ctx0, exitCode := 0, sems := fun _ => none,
    heapEnd := 4096, mem := zeroMem }

/-- A manager holding only the kernel process, which is current. -/
def pm1 : ProcessManager :=
  { table := fun q => if q = 1 then some kernelProc else none,
    readyQueue := [], current := 1, nextPid := 2, waiters := fun _ => none }

/-- A manager holding the kernel process and a current user process (pid 2). -/
def pm2 : ProcessManager :=
  { table := fun q =>
      if q = 1 then some kernelProc else if q = 2 then some userProc else none,
    readyQueue := [], current := 2, nextPid := 3, waiters := fun _ => none }

/-- Trivial externals over a unit allocator state. -/
def extUnit : Externals Unit :=
  { allocate_first_fit := fun a _ => (some 64, a)
    deallocate := fun a _ _ => a
    derefLayout := fun _ => ⟨8, 8⟩
    derefStr := fun _ _ => "" }

/-- A concrete kernel state over the unit allocator. -/
def ksUnit : KernelState Unit :=
  { pm := pm2, userAllocator := (), clockNanos := 0, serialOut := [],
    stdinBuf := [], appList := [] }

/-! ## Helper lemmas -/

/-- A point update whose result coincides with the stored entry changes
nothing. -/
theorem pmUpdate_id (m : ProcessManager) (pid : Nat) (f : Process → Process)
    (h : (m.table pid).map f = m.table pid) : pmUpdate m pid f = m := by
  unfold pmUpdate
  cases m with
  | mk table rq cur np w =>
    simp only [ProcessManager.mk.injEq, and_true]
    funext q
    by_cases hq : q = pid
    · subst hq; simpa using h
    · simp [hq]

/-- `switch_next` does not change the saved state of any pid other than the
selected head of the ready queue. -/
theorem switch_next_table_ne (m : ProcessManager) (ctx : ProcessContext) (q : Nat)
    (h : q ≠ m.readyQueue.headD KERNEL_PID) :
    (switch_next m ctx).2.table q = m.table q := by
  simp only [switch_next]
  split
  · simp only [pmUpdate]
    rw [if_neg h]
  · rfl

/-- `switch_next` changes at most the status of a table entry: context,
memory, semaphores and heap end of every stored process are preserved. -/
theorem switch_next_table_entry (m : ProcessManager) (ctx : ProcessContext)
    (q : Nat) (p : Process) (h : m.table q = some p) :
    ∃ p2, (switch_next m ctx).2.table q = some p2 ∧
      p2.context = p.context ∧ p2.mem = p.mem ∧ p2.sems = p.sems ∧
      p2.heapEnd = p.heapEnd ∧
      (p2.status = p.status ∨ p2.status = .Running) := by
  simp only [switch_next]
  split
  · by_cases hq : q = m.readyQueue.headD KERNEL_PID
    · refine ⟨{ p with status := .Running }, ?_, rfl, rfl, rfl, rfl, Or.inr rfl⟩
      simp only [pmUpdate]
      rw [if_pos hq, ← hq, h]
      rfl
    · refine ⟨p, ?_, rfl, rfl, rfl, rfl, Or.inl rfl⟩
      simp only [pmUpdate]
      rw [if_neg hq]
      exact h
  · exact ⟨p, h, rfl, rfl, rfl, rfl, Or.inl rfl⟩

/-- A pid absent from the table stays absent across `switch_next`. -/
theorem switch_next_table_none (m : ProcessManager) (ctx : ProcessContext)
    (q : Nat) (h : m.table q = none) :
    (switch_next m ctx).2.table q = none := by
  simp only [switch_next]
  split
  · by_cases hq : q = m.readyQueue.headD KERNEL_PID
    · simp only [pmUpdate]
      rw [if_pos hq, ← hq, h]
      rfl
    · simp only [pmUpdate]
      rw [if_neg hq]
      exact h
  · exact h

/-- `switch_next` pops the front of the ready queue. -/
theorem switch_next_queue (m : ProcessManager) (ctx : ProcessContext) :
    (switch_next m ctx).2.readyQueue = m.readyQueue.tail := by
  simp only [switch_next]
  split <;> rfl

/-- `switch_next` does not touch the waiter registry. -/
theorem switch_next_waiters (m : ProcessManager) (ctx : ProcessContext) :
    (switch_next m ctx).2.waiters = m.waiters := by
  simp only [switch_next]
  split <;> rfl

/-- The head of the ready queue is either a queue member or the kernel pid. -/
theorem headD_mem_or (l : List Nat) (d : Nat) :
    l.headD d ∈ l ∨ l.headD d = d := by
  cases l with
  | nil => exact Or.inr rfl
  | cons a t => exact Or.inl (List.mem_cons_self a t)

/-! ## Claims -/

/-- C6: the Kill syscall rejects pid 1: whenever the decoded target pid
(`arg0 as u16`) equals 1, `sys_kill` returns with the caller's context and
the whole process state unchanged — the kernel process is not terminated and
the calling process survives and continues. -/
theorem c6_sys_kill_rejects_kernel (args : SyscallArgs) (ctx : ProcessContext)
    (m : ProcessManager) (h : args.arg0 % U16 = 1) :
    sys_kill args ctx m = (ctx, m) := by
  simp [sys_kill, h]

/-- C6 witness: `sys_kill` with argument pid 1 on a concrete state. -/
theorem c6_witness :
    sys_kill ⟨.Kill, 1, 0, 0⟩ ctx0 pm2 = (ctx0, pm2) :=
  c6_sys_kill_rejects_kernel ⟨.Kill, 1, 0, 0⟩ ctx0 pm2 (by decide)

/-- C9: a Sem syscall whose operation selector `arg0` is 4 or greater writes
`usize::MAX` into the caller's saved return register and performs no
semaphore operation (the process state is unchanged). -/
theorem c9_sys_sem_bad_selector (args : SyscallArgs) (ctx : ProcessContext)
    (m : ProcessManager) (h : 4 ≤ args.arg0) :
    sys_sem args ctx m = (ctx.set_rax (USIZE - 1), m) := by
  have h0 : ¬ args.arg0 = 0 := by omega
  have h1 : ¬ args.arg0 = 1 := by omega
  have h2 : ¬ args.arg0 = 2 := by omega
  have h3 : ¬ args.arg0 = 3 := by omega
  simp [sys_sem, h0, h1, h2, h3]

/-- C9 witness: selector 4 on a concrete state. -/
theorem c9_witness :
    sys_sem ⟨.Sem, 4, 7, 0⟩ ctx0 pm2 = (ctx0.set_rax (USIZE - 1), pm2) :=
  c9_sys_sem_bad_selector ⟨.Sem, 4, 7, 0⟩ ctx0 pm2 (by decide)

/-- The current process's heap end (0 when the current pid is not stored) —
the value `brk(None)` reports. -/
def currentHeapEnd (m : ProcessManager) : Nat :=
  match m.table m.current with
  | some p => p.heapEnd
  | none => 0

/-- C7: `brk` with syscall argument 0 (decoded as `None`) is pure: it returns
the current `heap_end` and leaves the process state unchanged, so two such
calls with no intervening `brk(Some)` return the same value. -/
theorem c7_brk_none_pure (args : SyscallArgs) (m : ProcessManager)
    (h : args.arg0 = 0) :
    sys_brk args m = (currentHeapEnd m, m) ∧
    (sys_brk args (sys_brk args m).2).1 = (sys_brk args m).1 := by
  have hb : sys_brk args m = (currentHeapEnd m, m) := by
    simp only [sys_brk, h, if_pos]
    unfold brk currentHeapEnd
    cases hm : m.table m.current <;> rfl
  refine ⟨hb, ?_⟩
  rw [hb]
  show (sys_brk args m).1 = currentHeapEnd m
  rw [hb]

/-- C7 witness: two `brk(None)` calls on a concrete state with heap end
4096. -/
theorem c7_witness :
    sys_brk ⟨.Brk, 0, 0, 0⟩ pm2 = (currentHeapEnd pm2, pm2) ∧
    (sys_brk ⟨.Brk, 0, 0, 0⟩ (sys_brk ⟨.Brk, 0, 0, 0⟩ pm2).2).1 =
      (sys_brk ⟨.Brk, 0, 0, 0⟩ pm2).1 :=
  c7_brk_none_pure ⟨.Brk, 0, 0, 0⟩ pm2 rfl

/-- C10: `sys_allocate` and `sys_deallocate` act on the single global user
allocator shared by all processes: for every allocator implementation, two
kernel states that agree on the allocator state — however much their process
managers (in particular their current processes) differ — yield the same
return value and the same resulting allocator state, and neither call touches
the process manager. -/
theorem c10_allocator_global {A : Type} (ext : Externals A)
    (st1 st2 : KernelState A) (args : SyscallArgs)
    (h : st1.userAllocator = st2.userAllocator) :
    (sys_allocate ext st1 args).1 = (sys_allocate ext st2 args).1 ∧
    (sys_allocate ext st1 args).2.userAllocator =
      (sys_allocate ext st2 args).2.userAllocator ∧
    (sys_allocate ext st1 args).2.pm = st1.pm ∧
    (sys_deallocate ext st1 args).userAllocator =
      (sys_deallocate ext st2 args).userAllocator ∧
    (sys_deallocate ext st1 args).pm = st1.pm := by
  unfold sys_allocate sys_deallocate
  rw [h]
  by_cases hz : (ext.derefLayout args.arg0).size = 0
  · by_cases hz1 : args.arg0 = 0 ∨ (ext.derefLayout args.arg1).size = 0
    · simp [hz, hz1, h]
    · simp [hz, hz1, h]
  · rcases ha : ext.allocate_first_fit st2.userAllocator (ext.derefLayout args.arg0)
      with ⟨r, a⟩
    by_cases hz1 : args.arg0 = 0 ∨ (ext.derefLayout args.arg1).size = 0
    · cases r <;> simp [hz, hz1, ha, h]
    · cases r <;> simp [hz, hz1, ha, h]

/-- C10 witness: the same unit-allocator state under two managers whose
current processes differ (pid 1 versus pid 2). -/
theorem c10_witness :
    (sys_allocate extUnit ⟨pm1, (), 0, [], [], []⟩ ⟨.Allocate, 8, 0, 0⟩).1 =
      (sys_allocate extUnit ksUnit ⟨.Allocate, 8, 0, 0⟩).1 ∧
    (sys_allocate extUnit ⟨pm1, (), 0, [], [], []⟩ ⟨.Allocate, 8, 0, 0⟩).2.userAllocator =
      (sys_allocate extUnit ksUnit ⟨.Allocate, 8, 0, 0⟩).2.userAllocator ∧
    (sys_allocate extUnit ⟨pm1, (), 0, [], [], []⟩ ⟨.Allocate, 8, 0, 0⟩).2.pm = pm1 ∧
    (sys_deallocate extUnit ⟨pm1, (), 0, [], [], []⟩ ⟨.Allocate, 8, 0, 0⟩).userAllocator =
      (sys_deallocate extUnit ksUnit ⟨.Allocate, 8, 0, 0⟩).userAllocator ∧
    (sys_deallocate extUnit ⟨pm1, (), 0, [], [], []⟩ ⟨.Allocate, 8, 0, 0⟩).pm = pm1 :=
  c10_allocator_global extUnit ⟨pm1, (), 0, [], [], []⟩ ksUnit ⟨.Allocate, 8, 0, 0⟩ rfl

/-- C2 (amended): for every syscall request whose call number decodes to no
recognized syscall, the dispatcher ignores the call, leaving the caller's
saved context — including the return register rax — and the whole kernel
state unchanged; the user program therefore observes its original call
number in rax, not 0. -/
theorem c2_unknown_syscall_ignored {A : Type} (ext : Externals A)
    (ctx : ProcessContext) (st : KernelState A)
    (h : syscallFromNat ctx.regs.rax = Syscall.None) :
    dispatcher ext ctx st = (ctx, st) := by
  unfold dispatcher
  simp only [h]

/-- C2 witness: call number 20 decodes to no recognized syscall; the
dispatcher returns context and state unchanged. -/
theorem c2_witness :
    dispatcher extUnit ⟨⟨20, 1, 2, 3⟩⟩ ksUnit = (⟨⟨20, 1, 2, 3⟩⟩, ksUnit) :=
  c2_unknown_syscall_ignored extUnit ⟨⟨20, 1, 2, 3⟩⟩ ksUnit rfl

/-- C2 counterexample: with unrecognized call number 9999 the dispatcher
leaves rax equal to 9999 — the claim that it writes 0 into the saved return
register is false. -/
theorem c2_counterexample :
    (dispatcher extUnit ⟨⟨9999, 0, 0, 0⟩⟩ ksUnit).1.regs.rax = 9999 ∧
    ¬ (dispatcher extUnit ⟨⟨9999, 0, 0, 0⟩⟩ ksUnit).1.regs.rax = 0 :=
  ⟨rfl, by decide⟩

/-- C8: a `sem_wait` or `sem_signal` on a key absent from the calling
process's semaphore table writes return value 1 into the caller's saved
return register and neither blocks nor modifies any state: context aside,
the manager is returned exactly as it was. -/
theorem c8_sem_missing_key (key : Nat) (ctx : ProcessContext)
    (m : ProcessManager) (p : Process)
    (hp : m.table m.current = some p) (hk : p.sems key = none) :
    sem_wait key ctx m = (ctx.set_rax 1, m) ∧
    sem_signal key ctx m = (ctx.set_rax 1, m) := by
  have hu : pmUpdate m m.current (fun q => { q with sems := p.sems }) = m := by
    apply pmUpdate_id
    rw [hp]
    rfl
  constructor
  · simp only [sem_wait, hp, semWait, hk]
    rw [hu]
  · simp only [sem_signal, hp, semSignal, hk]
    rw [hu]

/-- C8 witness: key 5 is absent from the sample process's semaphore table. -/
theorem c8_witness :
    sem_wait 5 ctx0 pm2 = (ctx0.set_rax 1, pm2) ∧
    sem_signal 5 ctx0 pm2 = (ctx0.set_rax 1, pm2) :=
  c8_sem_missing_key 5 ctx0 pm2 userProc rfl rfl

/-- The `as usize` cast of isize 0 is 0. -/
theorem usizeOfInt_zero : usizeOfInt 0 = 0 := rfl

/-- Table read of a point update at the updated pid. -/
theorem pmUpdate_table_self (m : ProcessManager) (pid : Nat) (f : Process → Process) :
    (pmUpdate m pid f).table pid = (m.table pid).map f := by
  simp [pmUpdate]

/-- Table read of a point update away from the updated pid. -/
theorem pmUpdate_table_ne (m : ProcessManager) (pid : Nat) (f : Process → Process)
    (q : Nat) (h : q ≠ pid) : (pmUpdate m pid f).table q = m.table q := by
  simp [pmUpdate, h]

/-- Table read of a removal at the removed pid. -/
theorem pmRemove_table_self (m : ProcessManager) (pid : Nat) :
    (pmRemove m pid).table pid = none := by
  simp [pmRemove]

/-- Table read of a removal away from the removed pid. -/
theorem pmRemove_table_ne (m : ProcessManager) (pid q : Nat) (h : q ≠ pid) :
    (pmRemove m pid).table q = m.table q := by
  simp [pmRemove, h]

/-- `wake_up` rewrites the woken pid's entry: Ready, return value in rax. -/
theorem wake_up_table_self (m : ProcessManager) (pid : Nat) (ret : Int)
    (p : Process) (h : m.table pid = some p) :
    (wake_up m pid ret).table pid =
      some { p with status := .Ready, context := p.context.set_rax (usizeOfInt ret) } := by
  simp [wake_up, push_ready, pmUpdate, h]

/-- `wake_up` leaves every other entry alone. -/
theorem wake_up_table_ne (m : ProcessManager) (pid : Nat) (ret : Int) (q : Nat)
    (h : q ≠ pid) : (wake_up m pid ret).table q = m.table q := by
  simp [wake_up, push_ready, pmUpdate, h]

/-- `wake_up` appends the woken pid to the ready queue. -/
theorem wake_up_queue (m : ProcessManager) (pid : Nat) (ret : Int) :
    (wake_up m pid ret).readyQueue = m.readyQueue ++ [pid] := rfl

/-- C5: `sem_signal` on a key present in the calling process's semaphore
table: with at least one waiter, the longest-waiting pid (the FIFO head) is
dequeued and woken with return value 0 written into its saved return
register, the counter unchanged; with no waiter, the counter is incremented
and the signaller's saved return register is set to 0. -/
theorem c5_sem_signal_spec (key : Nat) (ctx : ProcessContext)
    (m : ProcessManager) (p : Process) (s : Semaphore)
    (hp : m.table m.current = some p) (hs : p.sems key = some s) :
    (s.waitQueue = [] →
      sem_signal key ctx m =
        (ctx.set_rax 0,
         pmUpdate m m.current fun q =>
           { q with sems := fun k =>
               if k = key then some { s with count := s.count + 1 } else p.sems k })) ∧
    (∀ w rest pw, s.waitQueue = w :: rest → w ≠ m.current →
      m.table w = some pw →
      (sem_signal key ctx m).1 = ctx ∧
      (sem_signal key ctx m).2.table w =
        some { pw with status := .Ready, context := pw.context.set_rax 0 } ∧
      w ∈ (sem_signal key ctx m).2.readyQueue ∧
      ∃ q2, (sem_signal key ctx m).2.table m.current = some q2 ∧
        q2.sems key = some { s with waitQueue := rest }) := by
  constructor
  · intro hq
    simp only [sem_signal, hp, semSignal, hs, hq]
  · intro w rest pw hq hwne hw
    have hsig : sem_signal key ctx m =
        (ctx, wake_up (pmUpdate m m.current fun q =>
          { q with sems := fun k =>
              if k = key then some { s with waitQueue := rest } else p.sems k }) w 0) := by
      simp only [sem_signal, hp, semSignal, hs, hq]
    rw [hsig]
    have hw1 : (pmUpdate m m.current fun q =>
        { q with sems := fun k =>
            if k = key then some { s with waitQueue := rest } else p.sems k }).table w
        = some pw := by
      rw [pmUpdate_table_ne _ _ _ _ hwne]
      exact hw
    refine ⟨rfl, ?_, ?_, ?_⟩
    · rw [wake_up_table_self _ _ _ _ hw1, usizeOfInt_zero]
    · rw [wake_up_queue]
      exact List.mem_append_right _ (List.mem_singleton_self w)
    · refine ⟨{ p with sems := fun k =>
          if k = key then some { s with waitQueue := rest } else p.sems k }, ?_, ?_⟩
      · rw [wake_up_table_ne _ _ _ _ (Ne.symm hwne), pmUpdate_table_self, hp]
        rfl
      · simp

/-- A process whose semaphore table has key 7 with counter 1 and no
waiters. -/
def semProcA : Process :=
  { status := .Running, context := ctx0, exitCode := 0,
    sems := fun k => if k = 7 then some ⟨1, []⟩ else none,
    heapEnd := 0, mem := zeroMem }

/-- A process whose semaphore table has key 7 with counter 0 and pid 3
waiting. -/
def semProcB : Process :=
  { status := .Running, context := ctx0, exitCode := 0,
    sems := fun k => if k = 7 then some ⟨0, [3]⟩ else none,
    heapEnd := 0, mem := zeroMem }

/-- A blocked process (pid 3 in the semaphore scenarios). -/
def waiterProc : Process :=
  { status := .Blocked, context := ctx0, exitCode := 0, sems := fun _ => none,
    heapEnd := 0, mem := zeroMem }

/-- Manager: current pid 2 holds semaphore key 7 = (1, no waiters). -/
def pmSemA : ProcessManager :=
  { table := fun q =>
      if q = 1 then some kernelProc else if q = 2 then some semProcA else none,
    readyQueue := [], current := 2, nextPid := 4, waiters := fun _ => none }

/-- Manager: current pid 2 holds semaphore key 7 = (0, waiter 3); pid 3 is
Blocked. -/
def pmSemB : ProcessManager :=
  { table := fun q =>
      if q = 1 then some kernelProc
      else if q = 2 then some semProcB
      else if q = 3 then some waiterProc else none,
    readyQueue := [], current := 2, nextPid := 4, waiters := fun _ => none }

/-- C5 witness: both branches at concrete states — signalling key 7 with no
waiter increments the counter and returns 0; signalling key 7 with waiter 3
wakes pid 3 with 0 in its saved rax, counter unchanged. -/
theorem c5_witness :
    (sem_signal 7 ctx0 pmSemA =
      (ctx0.set_rax 0,
       pmUpdate pmSemA pmSemA.current fun q =>
         { q with sems := fun k =>
             if k = 7 then some ⟨1 + 1, []⟩ else semProcA.sems k })) ∧
    ((sem_signal 7 ctx0 pmSemB).1 = ctx0 ∧
     (sem_signal 7 ctx0 pmSemB).2.table 3 =
       some { waiterProc with status := .Ready, context := waiterProc.context.set_rax 0 } ∧
     3 ∈ (sem_signal 7 ctx0 pmSemB).2.readyQueue ∧
     ∃ q2, (sem_signal 7 ctx0 pmSemB).2.table pmSemB.current = some q2 ∧
       q2.sems 7 = some ⟨0, []⟩) :=
  ⟨(c5_sem_signal_spec 7 ctx0 pmSemA semProcA ⟨1, []⟩ rfl rfl).1 rfl,
   (c5_sem_signal_spec 7 ctx0 pmSemB semProcB ⟨0, [3]⟩ rfl rfl).2
     3 [] waiterProc rfl (by decide) rfl⟩

/-- After the `fork` wrapper, the table holds the child (at the drawn pid)
with saved context `ctx.set_rax 0` and a byte-for-byte copy of the parent's
memory, and the parent with saved context `ctx.set_rax childPid` and its
memory untouched. -/
theorem fork_table_entries (ctx : ProcessContext) (m : ProcessManager)
    (p : Process) (hp : m.table m.current = some p)
    (hne : m.nextPid ≠ m.current) :
    ∃ qc qp,
      (fork ctx m).2.table m.nextPid = some qc ∧
      (fork ctx m).2.table m.current = some qp ∧
      qc.context = ctx.set_rax 0 ∧ qc.mem = p.mem ∧
      qp.context = ctx.set_rax m.nextPid ∧ qp.mem = p.mem := by
  have hchild : (push_ready (pmFork (save_current m ctx).2) (save_current m ctx).1).table
      m.nextPid =
      some { p with status := .Ready, context := ctx.set_rax 0 } := by
    simp [push_ready, pmFork, save_current, pmUpdate, pmInsert, hp]
  have hparent : (push_ready (pmFork (save_current m ctx).2) (save_current m ctx).1).table
      m.current =
      some { p with status := if p.status = .Running then .Ready else p.status
                    context := ctx.set_rax m.nextPid } := by
    simp [push_ready, pmFork, save_current, pmUpdate, pmInsert, hp, Ne.symm hne]
  obtain ⟨qc, hqc, hqcctx, hqcmem, -, -, -⟩ :=
    switch_next_table_entry _ ctx m.nextPid _ hchild
  obtain ⟨qp, hqp, hqpctx, hqpmem, -, -, -⟩ :=
    switch_next_table_entry _ ctx m.current _ hparent
  exact ⟨qc, qp, hqc, hqp, hqcctx, hqcmem, hqpctx, hqpmem⟩

/-- C3: for every successful fork, the child's saved context carries return
value 0, the parent's saved context carries the child's pid, and the child's
pid (drawn from the monotonic counter above every allocated pid, the kernel's
included) is neither 0 nor the parent's pid. -/
theorem c3_fork_return_values (ctx : ProcessContext) (m : ProcessManager)
    (p : Process) (hp : m.table m.current = some p)
    (hk : (m.table KERNEL_PID).isSome = true)
    (hmono : ∀ q, (m.table q).isSome = true → q < m.nextPid)
    (hu16 : m.nextPid < U16) :
    ∃ qc qp,
      (fork ctx m).2.table m.nextPid = some qc ∧
      (fork ctx m).2.table m.current = some qp ∧
      qc.context.regs.rax = 0 ∧
      qp.context.regs.rax = m.nextPid ∧
      m.nextPid ≠ 0 ∧ m.nextPid ≠ m.current := by
  have hcur : m.current < m.nextPid := hmono m.current (by rw [hp]; rfl)
  have hone : KERNEL_PID < m.nextPid := hmono KERNEL_PID hk
  have hne : m.nextPid ≠ m.current := by omega
  have h0 : m.nextPid ≠ 0 := by
    have : (1 : Nat) < m.nextPid := hone
    omega
  have hlt : m.nextPid < USIZE :=
    lt_trans hu16 (by unfold U16 USIZE; norm_num)
  obtain ⟨qc, qp, hqc, hqp, hqcctx, -, hqpctx, -⟩ := fork_table_entries ctx m p hp hne
  refine ⟨qc, qp, hqc, hqp, ?_, ?_, h0, hne⟩
  · rw [hqcctx]
    simp [ProcessContext.set_rax]
  · rw [hqpctx]
    simp [ProcessContext.set_rax, Nat.mod_eq_of_lt hlt]

/-- C3 witness: forking the concrete current process pid 2 of `pm2` creates
child pid 3 with saved rax 0, parent's saved rax 3, and 3 is neither 0 nor
2. -/
theorem c3_witness :
    ∃ qc qp,
      (fork ctx0 pm2).2.table 3 = some qc ∧
      (fork ctx0 pm2).2.table 2 = some qp ∧
      qc.context.regs.rax = 0 ∧
      qp.context.regs.rax = 3 ∧
      (3 : Nat) ≠ 0 ∧ (3 : Nat) ≠ 2 :=
  c3_fork_return_values ctx0 pm2 userProc rfl rfl
    (fun q hq => by
      show q < 3
      by_cases h1 : q = 1
      · omega
      · by_cases h2 : q = 2
        · omega
        · exfalso
          have hnone : pm2.table q = none := by simp [pm2, h1, h2]
          rw [hnone] at hq
          simp at hq)
    (by decide)

/-- After the `fork` wrapper and then any user-mode 64-bit store performed by
the child, the parent's saved memory image is byte-for-byte its pre-fork one
(strict copy-on-fork): every address the parent itself did not write is
unchanged, whatever the child wrote. -/
theorem fork_child_store_preserves_parent_mem (ctx : ProcessContext)
    (m : ProcessManager) (p : Process) (addr v : Nat)
    (hp : m.table m.current = some p) (hne : m.nextPid ≠ m.current) :
    ∃ qp, (userStoreU64 (fork ctx m).2 m.nextPid addr v).table m.current = some qp ∧
      qp.mem = p.mem := by
  obtain ⟨qc, qp, hqc, hqp, -, -, -, hqpmem⟩ := fork_table_entries ctx m p hp hne
  refine ⟨qp, ?_, hqpmem⟩
  unfold userStoreU64
  rw [pmUpdate_table_ne _ _ _ _ (Ne.symm hne)]
  exact hqp

/-- The (representative) address of the static `M` of the fork test app. -/
def mAddr : Nat := 4096

/-- The parent of the fork test: its memory holds `M = 0xdeadbeef`
(src/pkg/app/fork/src/main.rs line 9). -/
def forkParent : Process :=
  { status := .Running, context := ctx0, exitCode := 0, sems := fun _ => none,
    heapEnd := 0, mem := memStoreU64 zeroMem mAddr 0xdeadbeef }

/-- Manager state of the fork test just before the `sys_fork` call: the
parent (pid 2) is current, the kernel (pid 1) idles. -/
def forkPM : ProcessManager :=
  { table := fun q =>
      if q = 1 then some kernelProc else if q = 2 then some forkParent else none,
    readyQueue := [], current := 2, nextPid := 3, waiters := fun _ => none }

/-- The fork-test run under the spec's strict copy-on-fork model: the parent
forks (child pid 3), then the child stores `M = 0x2333`
(src/pkg/app/fork/src/main.rs line 23). -/
def forkScenario : ProcessManager :=
  userStoreU64 (fork ctx0 forkPM).2 3 mAddr 0x2333

/-- What the parent reads back from `M` after the child's store. -/
def parentReadM : Nat :=
  match forkScenario.table 2 with
  | some q => memLoadU64 q.mem mAddr
  | none => 0

/-- C1: under the spec's strict copy-on-fork semantics (the behavior the
specification defines as correct), the parent's read of the static `M` after
the child's write still yields the pre-fork value `0xdeadbeef` — so the fork
test's assertion `M == 0x2333` (src/pkg/app/fork/src/main.rs line 45) fails:
the test contradicts the specified isolation guarantee. -/
theorem c1_fork_test_divergence :
    parentReadM = 0xdeadbeef ∧ ¬ parentReadM = 0x2333 := by
  constructor <;> decide

/-- C4: `wait_pid(pid)`.  Dead target: the caller's saved return register
receives the target's exit code, the target is removed from the table and the
caller is not blocked (context aside, nothing else changes).  Live target:
the caller's context is saved, its status becomes Blocked, it is absent from
the ready queue (so `switch_next` can never run it until woken) and it is
registered as the waiter on the target.  Delivery: when the target (running
as current) exits, the registered waiter is woken with the exit code already
written into its saved return register, and the target is gone from the
table. -/
theorem c4_wait_pid_spec (pid : Nat) (ctx : ProcessContext) (m : ProcessManager)
    (p pc : Process)
    (hp : m.table pid = some p) (hpc : m.table m.current = some pc)
    (hq : m.current ∉ m.readyQueue) (hc1 : m.current ≠ KERNEL_PID) :
    (p.status = .Dead →
      wait_pid pid ctx m = (ctx.set_rax (usizeOfInt p.exitCode), pmRemove m pid)) ∧
    (¬ p.status = .Dead →
      (wait_pid pid ctx m).2.table m.current =
        some { pc with status := .Blocked, context := ctx } ∧
      m.current ∉ (wait_pid pid ctx m).2.readyQueue ∧
      (wait_pid pid ctx m).2.waiters pid = some m.current) ∧
    (∀ (code : Int) (ctx2 : ProcessContext) (w : Nat) (pw : Process),
      m.waiters m.current = some w → m.table w = some pw → w ≠ m.current →
      ∃ qw, (process_exit code ctx2 m).2.table w = some qw ∧
        qw.context = pw.context.set_rax (usizeOfInt code) ∧
        (qw.status = .Ready ∨ qw.status = .Running) ∧
        (process_exit code ctx2 m).2.table m.current = none) := by
  refine ⟨?_, ?_, ?_⟩
  · intro hdead
    simp only [wait_pid, pmWaitPid, hp, hdead, reduceIte]
  · intro hdead
    have hW : pmWaitPid m pid =
        (none, { m with waiters := fun t => if t = pid then some m.current else m.waiters t }) := by
      simp only [pmWaitPid, hp, if_neg hdead]
    have hwp : wait_pid pid ctx m =
        switch_next
          (blockPid
            (save_current
              { m with waiters := fun t => if t = pid then some m.current else m.waiters t }
              ctx).2
            (save_current
              { m with waiters := fun t => if t = pid then some m.current else m.waiters t }
              ctx).1)
          ctx := by
      simp only [wait_pid, hW]
    set mBl :=
      blockPid
        (save_current
          { m with waiters := fun t => if t = pid then some m.current else m.waiters t }
          ctx).2
        (save_current
          { m with waiters := fun t => if t = pid then some m.current else m.waiters t }
          ctx).1
      with hmBl
    have hqueueBl : mBl.readyQueue = m.readyQueue := rfl
    have hhead : m.current ≠ mBl.readyQueue.headD KERNEL_PID := by
      rw [hqueueBl]
      rcases headD_mem_or m.readyQueue KERNEL_PID with hmem | hk
      · exact fun he => hq (he ▸ hmem)
      · rw [hk]; exact hc1
    refine ⟨?_, ?_, ?_⟩
    · rw [hwp, switch_next_table_ne _ _ _ hhead, hmBl]
      simp [blockPid, save_current, pmUpdate, hpc]
    · rw [hwp, switch_next_queue, hqueueBl]
      exact fun hmem => hq (List.mem_of_mem_tail hmem)
    · rw [hwp, switch_next_waiters, hmBl]
      simp [blockPid, save_current, pmUpdate]
  · intro code ctx2 w pw hw hpw hwne
    have hKw : (pmKill m m.current code).table w =
        some { pw with status := .Ready,
                       context := pw.context.set_rax (usizeOfInt code) } := by
      simp [pmKill, hw, pmRemove, wake_up, push_ready, pmUpdate, hwne, Ne.symm hwne, hpw]
    have hKc : (pmKill m m.current code).table m.current = none := by
      simp [pmKill, hw, pmRemove]
    have hpe : (process_exit code ctx2 m).2 =
        (switch_next (pmKill m m.current code) ctx2).2 := rfl
    obtain ⟨qw, hqw, hctx, -, -, -, hstat⟩ :=
      switch_next_table_entry (pmKill m m.current code) ctx2 w _ hKw
    refine ⟨qw, ?_, hctx, ?_, ?_⟩
    · rw [hpe]; exact hqw
    · rcases hstat with hs | hs
      · exact Or.inl hs
      · exact Or.inr hs
    · rw [hpe]
      exact switch_next_table_none _ _ _ hKc

/-- `semWait` never answers `WakeUp`: the `unreachable!()` arm of the source
`sem_wait` wrapper is indeed dead code of the model. -/
theorem semWait_no_wakeup (t : SemTable) (key pid w : Nat) :
    (semWait t key pid).1 ≠ SemaphoreResult.WakeUp w := by
  unfold semWait
  cases t key with
  | none => simp
  | some s => by_cases h : 0 < s.count <;> simp [h]

/-- `semSignal` never answers `Block`: the `unreachable!()` arm of the source
`sem_signal` wrapper is indeed dead code of the model. -/
theorem semSignal_no_block (t : SemTable) (key pid : Nat) :
    (semSignal t key).1 ≠ SemaphoreResult.Block pid := by
  unfold semSignal
  cases t key with
  | none => simp
  | some s => cases hq : s.waitQueue <;> simp [hq]

/-- A dead process with exit code 7 (pid 3 in the wait scenario). -/
def deadProc : Process :=
  { status := .Dead, context := ctx0, exitCode := 7, sems := fun _ => none,
    heapEnd := 0, mem := zeroMem }

/-- Wait scenario: current pid 2; pid 3 is Dead with code 7; pid 4 is Blocked
and registered as the waiter on pid 2. -/
def pmWait : ProcessManager :=
  { table := fun q =>
      if q = 1 then some kernelProc
      else if q = 2 then some userProc
      else if q = 3 then some deadProc
      else if q = 4 then some waiterProc else none,
    readyQueue := [], current := 2, nextPid := 5,
    waiters := fun t => if t = 2 then some 4 else none }

/-- C4 witness: waiting on the Dead pid 3 delivers exit code 7 and removes
it; and when current pid 2 exits with code 9, its registered waiter pid 4 is
woken with 9 in its saved rax while pid 2 leaves the table. -/
theorem c4_witness :
    wait_pid 3 ctx0 pmWait = (ctx0.set_rax (usizeOfInt 7), pmRemove pmWait 3) ∧
    (∃ qw, (process_exit 9 ctx0 pmWait).2.table 4 = some qw ∧
      qw.context = waiterProc.context.set_rax (usizeOfInt 9) ∧
      (qw.status = .Ready ∨ qw.status = .Running) ∧
      (process_exit 9 ctx0 pmWait).2.table 2 = none) :=
  ⟨(c4_wait_pid_spec 3 ctx0 pmWait deadProc userProc rfl rfl (by decide) (by decide)).1 rfl,
   (c4_wait_pid_spec 3 ctx0 pmWait deadProc userProc rfl rfl (by decide) (by decide)).2.2
     9 ctx0 4 waiterProc rfl rfl (by decide)⟩

end YasSenOS
